import Mathlib

/-!
Shallow embedding of the go-mcp-sdk server core: the tool registry and its
registration validation (src/server.go, src/unnamed/part_001), the JSON schema
synthesis wrapper (src/unnamed/part_002, schema_generator.go), the JSON-RPC
router and method handlers (src/server.go, src/pkg/mcp/rpc.go), and the wire
data model (src/pkg/protocol/protocol.go).

Machine values that the Go code manipulates through the reflect package are
embedded as explicit descriptors: a handler is a shape (function or not, a
list of parameter type descriptors) plus its behaviour as a Lean function; a
parameter type records whether it implements the context interface and, when
it is a pointer to a struct, the struct fields. JSON is an inductive value
type; the stdlib json.Unmarshal decoding rules the code relies on (missing
fields keep zero values, null is a no-op, unknown keys are ignored, type
mismatches error) are translated into the parse and decode functions below.
The wall clock read by time.Now().UnixNano() is passed in as an explicit Nat
so that session minting is a function of its inputs.
-/

namespace GoMcp

/-- JSON values, the shallow embedding of what encoding/json parses. -/
inductive Json where
  | null : Json
  | boolVal : Bool → Json
  | num : Int → Json
  | str : String → Json
  | arr : List Json → Json
  | obj : List (String × Json) → Json

/-- Lookup of a key in an association list, the embedding of Go map indexing
and of picking a member out of a parsed JSON object. -/
def assocFind {α : Type} (k : String) : List (String × α) → Option α
  | [] => none
  | (k2, v) :: rest => if k2 = k then some v else assocFind k rest

/-- Insertion with overwrite, the embedding of Go map assignment. -/
def assocInsert {α : Type} (k : String) (v : α) : List (String × α) → List (String × α)
  | [] => [(k, v)]
  | (k2, v2) :: rest => if k2 = k then (k, v) :: rest else (k2, v2) :: assocInsert k v rest

/-- Primitive Go field types that appear in tool parameter structs. -/
inductive PrimType where
  | number : PrimType
  | string : PrimType
  | boolean : PrimType
deriving DecidableEq

/-- Go runtime values of those primitive types. -/
inductive GoVal where
  | num : Int → GoVal
  | str : String → GoVal
  | boolean : Bool → GoVal
deriving DecidableEq

/-- Zero value of a Go primitive type, what a struct field holds before
json.Unmarshal writes to it. -/
def PrimType.zero : PrimType → GoVal
  | .number => .num 0
  | .string => .str ""
  | .boolean => .boolean false

/-- JSON schema type keyword synthesized for a primitive Go type. -/
def PrimType.schemaName : PrimType → String
  | .number => "number"
  | .string => "string"
  | .boolean => "boolean"

/-- One exported field of a tool parameter struct: the Go field name, the
raw json tag, the description tag and the field type. -/
structure StructField where
  fieldName : String
  jsonTag : String
  descTag : String
  fieldType : PrimType
deriving DecidableEq

/-- First comma separated component of a json tag, the embedding of
strings.Split(jsonTag, ",")[0] in generateSchemaForType. -/
def jsonPropName (f : StructField) : String :=
  (f.jsonTag.toList.takeWhile (fun c => c ≠ ',')).asString

/-- Property key under which encoding/json reads and writes a field: the json
tag name when a tag is present, the Go field name otherwise. -/
def fieldKey (f : StructField) : String :=
  if f.jsonTag = "" then f.fieldName else jsonPropName f

/-- One property of a synthesized JSON schema. -/
structure SchemaProperty where
  typeName : String
  description : String
deriving DecidableEq

/-- Synthesized JSON schema document: the object type keyword, the properties
map and the required list. -/
structure Schema where
  typeName : String
  properties : List (String × SchemaProperty)
  required : List String
deriving DecidableEq

/-- Modelled from the spec: the third party jsonschema reflector invoked by
generateSchemaForType (github.com/invopop/jsonschema, not part of this
repository) produces, with DoNotReference set, an inlined object schema with
one property per struct field, keyed by the json tag name (or the Go field
name when no tag is given), skipping fields tagged with a dash, the machine
type inferred from the field type, and no description. -/
def reflectProperties (fields : List StructField) : List (String × SchemaProperty) :=
  fields.filterMap fun f =>
    if f.jsonTag = "-" then none
    else some (fieldKey f, ⟨f.fieldType.schemaName, ""⟩)

/-- Update of one property description inside the properties map, the
embedding of the prop.Description assignment in generateSchemaForType. -/
def setDescription (props : List (String × SchemaProperty)) (name desc : String) :
    List (String × SchemaProperty) :=
  props.map fun kv => if kv.1 = name then (kv.1, ⟨kv.2.typeName, desc⟩) else kv

/-- Step 2 of generateSchemaForType: walk the struct fields and copy each
description tag onto the matching generated property, skipping fields with an
empty or dash json tag and empty description tags. -/
def addDescriptions (fields : List StructField) (props : List (String × SchemaProperty)) :
    List (String × SchemaProperty) :=
  fields.foldl
    (fun acc f =>
      if f.jsonTag = "" ∨ f.jsonTag = "-" then acc
      else if f.descTag = "" then acc
      else setDescription acc (jsonPropName f) f.descTag)
    props

/-- Step 3 of generateSchemaForType: every field with a json tag that is
neither empty nor a dash is appended to the required list. -/
def requiredList (fields : List StructField) : List String :=
  fields.foldl
    (fun acc f =>
      if f.jsonTag ≠ "" ∧ f.jsonTag ≠ "-" then acc ++ [jsonPropName f]
      else acc)
    []

/-- Go types as far as the registration path inspects them: a pointer, a
struct with its fields, or anything else. -/
inductive GoType where
  | ptrTo : GoType → GoType
  | structT : List StructField → GoType
  | primT : GoType

/-- Embedding of generateSchemaForType (schema_generator.go): dereference a
pointer type once, fall back to a minimal empty object schema for non struct
types, otherwise reflect the base schema, add descriptions from tags and mark
every tagged field required. The final json.MarshalIndent step never fails on
these documents, so the error branch of the Go function is unreachable and
the result is always ok. -/
def generateSchemaForType (t : GoType) : Except String Schema :=
  let t2 := match t with
    | .ptrTo e => e
    | other => other
  match t2 with
  | .structT fields =>
      .ok ⟨"object", addDescriptions fields (reflectProperties fields), requiredList fields⟩
  | _ => .ok ⟨"object", [], []⟩

/-- Outcome of one handler invocation: the rendered first return value when
the handler declares one, and the error message when the returned error is
non nil. -/
structure HandlerOutcome where
  value : Option String
  errMsg : Option String

/-- Reflection view of one handler parameter type: whether it implements the
context.Context interface, and its struct fields when it is a pointer to a
struct. -/
structure ParamType where
  implementsContext : Bool
  structFields : Option (List StructField)

/-- Reflection view of a registered handler value: whether the value is a
function, its parameter types in order, and its behaviour on a decoded
parameter struct (the struct rendered as a field name to value assignment). -/
structure HandlerShape where
  isFunc : Bool
  params : List ParamType
  run : List (String × GoVal) → HandlerOutcome

/-- Protocol visible tool definition (protocol.Tool). -/
structure Tool where
  name : String
  title : String
  description : String
  inputSchema : Option Schema

/-- One entry of the slice passed to RegisterTools. -/
structure ToolRegistration where
  definition : Tool
  handler : HandlerShape

/-- Internal processed record stored by the registry
(internalRegisteredTool): the definition with its synthesized schema, the
input struct fields, the takesContext flag and the invocable handler. -/
structure RegisteredTool where
  definition : Tool
  fields : List StructField
  takesContext : Bool
  run : List (String × GoVal) → HandlerOutcome

/-- Session record stored per initialize call (SessionState), keeping the
declared client capabilities. -/
structure SessionState where
  clientCapabilities : Json

/-- Server software identity (protocol.ImplementationInfo). -/
structure ImplementationInfo where
  name : String
  version : String
  title : String
deriving DecidableEq

/-- Tool related server capability record. -/
structure ServerToolCapabilities where
  listChanged : Bool
deriving DecidableEq

/-- Server capability set (protocol.ServerCapabilities), with the optional
resource, prompt and logging members kept abstract as presence flags. -/
structure ServerCapabilities where
  tools : Option ServerToolCapabilities
  resources : Option Bool
  prompts : Option Bool
  logging : Option Bool
deriving DecidableEq

/-- Server state (mcp.Server): identity, capabilities, the session map and
the tool registry map. -/
structure ServerState where
  info : ImplementationInfo
  capabilities : ServerCapabilities
  sessions : List (String × SessionState)
  tools : List (String × RegisteredTool)

/-- Embedding of the handler signature validation inside registerSingleTool:
the value must be a function; takesContext is set when the first parameter
implements context.Context; the arity must then be exactly two with context
and exactly one without; the last parameter must be a pointer to a struct,
whose fields are returned together with the takesContext flag. -/
def validateHandler (h : HandlerShape) : Except String (Bool × List StructField) :=
  if h.isFunc = false then .error "handler must be a function"
  else
    let takesContext := match h.params.head? with
      | some p => p.implementsContext
      | none => false
    let expected : Nat := if takesContext then 2 else 1
    if h.params.length ≠ expected then
      .error ("handler has incorrect number of arguments (expected " ++ toString expected ++
        ", got " ++ toString h.params.length ++ ")")
    else
      match h.params.getLast? with
      | none => .error "handler has incorrect number of arguments"
      | some p =>
        match p.structFields with
        | some fs => .ok (takesContext, fs)
        | none => .error "handler parameter type must be a pointer to a struct"

/-- Embedding of registerSingleTool: reject an empty name, validate the
handler shape, synthesize the schema, reject a duplicate name, and only then
store the processed record. Every error path leaves the registry untouched,
which the pair result makes explicit. -/
def registerSingleTool (s : ServerState) (reg : ToolRegistration) : ServerState × Option String :=
  if reg.definition.name = "" then (s, some "tool definition must include a name")
  else
    match validateHandler reg.handler with
    | .error e => (s, some e)
    | .ok (tc, fs) =>
      match generateSchemaForType (.ptrTo (.structT fs)) with
      | .error e => (s, some e)
      | .ok schema =>
        if (assocFind reg.definition.name s.tools).isSome then
          (s, some ("tool with name " ++ reg.definition.name ++ " already registered"))
        else
          ({ s with tools := (reg.definition.name,
              ⟨⟨reg.definition.name, reg.definition.title, reg.definition.description,
                some schema⟩, fs, tc, reg.handler.run⟩) :: s.tools },
           none)

/-- Embedding of RegisterTools: register each entry in order and stop at the
first failure, returning the wrapped error. Entries registered before the
failing one stay in the registry, exactly as the Go loop leaves them. -/
def RegisterTools : ServerState → List ToolRegistration → ServerState × Option String
  | s, [] => (s, none)
  | s, reg :: rest =>
    match registerSingleTool s reg with
    | (s2, none) => RegisterTools s2 rest
    | (s2, some e) =>
      (s2, some ("failed to register tool " ++ reg.definition.name ++ ": " ++ e))

/-- JSON-RPC request identifier (protocol.RequestID): a string, a number or
null; the zero value holds nil and marshals as null. -/
inductive RequestID where
  | nullId : RequestID
  | strId : String → RequestID
  | numId : Int → RequestID
deriving DecidableEq

/-- Embedding of RequestID.UnmarshalJSON: try a string, then a number, then
null; anything else is an error. -/
def parseRequestID : Json → Except String RequestID
  | .str s => .ok (.strId s)
  | .num n => .ok (.numId n)
  | .null => .ok .nullId
  | _ => .error "invalid request ID: must be string, number, or null"

/-- Generic JSON-RPC request (protocol.Request); params keeps the raw JSON
of the member, as json.RawMessage does, and is none when absent. -/
structure Request where
  jsonrpc : String
  id : RequestID
  method : String
  params : Option Json

/-- Generic JSON-RPC notification (protocol.Notification). -/
structure Notification where
  jsonrpc : String
  method : String
  params : Option Json

/-- Decoding of a JSON object member into a Go string field: an absent member
or a null leaves the zero value, a string is taken, anything else errors.
This is the encoding/json behaviour the Go structs rely on. -/
def getStringField (kvs : List (String × Json)) (k : String) : Except String String :=
  match assocFind k kvs with
  | none => .ok ""
  | some .null => .ok ""
  | some (.str s) => .ok s
  | some _ => .error ("json: cannot unmarshal value into string field " ++ k)

/-- Embedding of json.Unmarshal(body, &req) for protocol.Request on an object
that was already parsed generically: jsonrpc and method must be strings when
present, the id member goes through RequestID.UnmarshalJSON (an absent id
leaves the zero value, which marshals as null), params keeps the raw JSON. -/
def parseRequest (kvs : List (String × Json)) : Except String Request :=
  match getStringField kvs "jsonrpc" with
  | .error e => .error e
  | .ok jsonrpc =>
    match (match assocFind "id" kvs with
           | none => Except.ok RequestID.nullId
           | some j => parseRequestID j) with
    | .error e => .error e
    | .ok id =>
      match getStringField kvs "method" with
      | .error e => .error e
      | .ok method => .ok ⟨jsonrpc, id, method, assocFind "params" kvs⟩

/-- Embedding of json.Unmarshal for protocol.Notification. -/
def parseNotification (kvs : List (String × Json)) : Except String Notification :=
  match getStringField kvs "jsonrpc" with
  | .error e => .error e
  | .ok jsonrpc =>
    match getStringField kvs "method" with
    | .error e => .error e
    | .ok method => .ok ⟨jsonrpc, method, assocFind "params" kvs⟩

/-- Parameters of a tools/call request (protocol.CallToolRequest): the tool
name and the loosely typed arguments map, none when the member is absent or
null (a nil Go map). -/
structure CallToolRequest where
  name : String
  arguments : Option (List (String × Json))

/-- Embedding of json.Unmarshal(req.Params, &callParams): null params are a
no-op leaving zero values, the name member must be a string when present, the
arguments member must be an object (or null, yielding a nil map). -/
def parseCallToolRequest : Json → Except String CallToolRequest
  | .null => .ok ⟨"", none⟩
  | .obj kvs =>
    (match getStringField kvs "name" with
     | .error e => .error e
     | .ok name =>
       match assocFind "arguments" kvs with
       | none => .ok ⟨name, none⟩
       | some .null => .ok ⟨name, none⟩
       | some (.obj m) => .ok ⟨name, some m⟩
       | some _ => .error "json: cannot unmarshal value into map field arguments")
  | _ => .error "json: cannot unmarshal value into CallToolRequest"

/-- Parameters of an initialize request (protocol.InitializeRequest); the
client capabilities are kept as the raw declared JSON. -/
structure InitializeRequest where
  protocolVersion : String
  clientInfo : ImplementationInfo
  capabilities : Json

/-- Decoding of the clientInfo member into protocol.ImplementationInfo. -/
def parseImplInfo : Option Json → Except String ImplementationInfo
  | none => .ok ⟨"", "", ""⟩
  | some .null => .ok ⟨"", "", ""⟩
  | some (.obj kvs) =>
    (match getStringField kvs "name" with
     | .error e => .error e
     | .ok n =>
       match getStringField kvs "version" with
       | .error e => .error e
       | .ok v =>
         match getStringField kvs "title" with
         | .error e => .error e
         | .ok t => .ok ⟨n, v, t⟩)
  | some _ => .error "json: cannot unmarshal value into ImplementationInfo"

/-- Decoding of the capabilities member into protocol.ClientCapabilities,
whose three members are pointers to empty structs: each must be absent, null
or an object; the declared JSON is kept for the session record. -/
def parseClientCaps : Option Json → Except String Json
  | none => .ok .null
  | some .null => .ok .null
  | some (.obj kvs) =>
    let fieldOk : String → Bool := fun k =>
      match assocFind k kvs with
      | none => true
      | some .null => true
      | some (.obj _) => true
      | some _ => false
    if fieldOk "roots" ∧ fieldOk "sampling" ∧ fieldOk "elicitation" then .ok (.obj kvs)
    else .error "json: cannot unmarshal value into ClientCapabilities"
  | some _ => .error "json: cannot unmarshal value into ClientCapabilities"

/-- Embedding of json.Unmarshal(req.Params, &initParams). -/
def parseInitializeRequest : Json → Except String InitializeRequest
  | .null => .ok ⟨"", ⟨"", "", ""⟩, .null⟩
  | .obj kvs =>
    (match getStringField kvs "protocolVersion" with
     | .error e => .error e
     | .ok pv =>
       match parseImplInfo (assocFind "clientInfo" kvs) with
       | .error e => .error e
       | .ok ci =>
         match parseClientCaps (assocFind "capabilities" kvs) with
         | .error e => .error e
         | .ok caps => .ok ⟨pv, ci, caps⟩)
  | _ => .error "json: cannot unmarshal value into InitializeRequest"

/-- JSON-RPC error object (protocol.ErrorObject); data is set only when the
error passed to writeErrorResponse is non nil with a non empty message. -/
structure ErrorObject where
  code : Int
  message : String
  data : Option String
deriving DecidableEq

/-- Result of a successful initialize (protocol.InitializeResult). -/
structure InitializeResult where
  protocolVersion : String
  serverInfo : ImplementationInfo
  capabilities : ServerCapabilities
deriving DecidableEq

/-- One content block of a tool result (protocol.ContentBlock). -/
structure ContentBlock where
  typeName : String
  text : String
deriving DecidableEq

/-- Payload of a tools/call response (protocol.CallToolResult); isError is
false by default and omitted from the wire encoding when false. -/
structure CallToolResult where
  content : List ContentBlock
  isError : Bool
deriving DecidableEq

/-- Result payloads the router can marshal into the result member. -/
inductive RpcResult where
  | initializeR : InitializeResult → RpcResult
  | listToolsR : List Tool → RpcResult
  | callToolR : CallToolResult → RpcResult

/-- JSON-RPC response envelope (protocol.Response): both result and error are
marked omitempty, so each is absent exactly when nil. -/
structure Response where
  jsonrpc : String
  id : RequestID
  result : Option RpcResult
  error : Option ErrorObject

/-- Observable outcome of handling one HTTP request: the status code written,
the JSON-RPC envelope written to the body when one is, and the value of the
Mcp-Session-Id response header when set. -/
structure HttpOut where
  status : Nat
  body : Option Response
  sessionHeader : Option String

/-- HTTP status chosen by writeErrorResponse for a JSON-RPC error code. -/
def httpStatusFor (code : Int) : Nat :=
  if code = -32700 ∨ code = -32600 ∨ code = -32602 then 400
  else if code = -32601 then 404
  else 500

/-- Embedding of writeErrorResponse: an envelope with the error member set
and the result member absent, the data string attached only when non empty,
and the status mapped from the code. -/
def writeErrorResponse (id : RequestID) (code : Int) (message : String)
    (data : Option String) : HttpOut :=
  let dataStr := match data with
    | none => ""
    | some d => d
  { status := httpStatusFor code,
    body := some ⟨"2.0", id, none,
      some ⟨code, message, if dataStr = "" then none else some dataStr⟩⟩,
    sessionHeader := none }

/-- Embedding of writeSuccessResponse: a 200 with the result member set and
the error member absent. Marshalling an InitializeResult, ListToolsResult or
CallToolResult never fails, so the internal error fallback of the Go helper
is unreachable. -/
def writeSuccessResponse (id : RequestID) (result : RpcResult) : HttpOut :=
  { status := 200, body := some ⟨"2.0", id, some result, none⟩, sessionHeader := none }

/-- Session identifier minted by handleInitialize from the nanosecond wall
clock: fmt.Sprintf("session-%d", now). -/
def sessionIdFor (now : Nat) : String := "session-" ++ Nat.repr now

/-- Embedding of handleInitialize: decode the params (nil params fail to
unmarshal), mint a session id from the clock, store the session (Go map
assignment overwrites an existing id), and answer with the negotiated
version echoed back, the server identity and capabilities, and the session
id in the response header. -/
def handleInitialize (s : ServerState) (req : Request) (now : Nat) :
    ServerState × HttpOut :=
  let parsed : Except String InitializeRequest := match req.params with
    | none => .error "unexpected end of JSON input"
    | some p => parseInitializeRequest p
  match parsed with
  | .error e => (s, writeErrorResponse req.id (-32602) "Invalid params for initialize" (some e))
  | .ok ip =>
    let sessionID := sessionIdFor now
    let s2 := { s with sessions := assocInsert sessionID ⟨ip.capabilities⟩ s.sessions }
    let result : InitializeResult := ⟨ip.protocolVersion, s.info, s.capabilities⟩
    (s2, { writeSuccessResponse req.id (.initializeR result) with sessionHeader := some sessionID })

/-- Embedding of handleListTools: a snapshot of the registered definitions. -/
def handleListTools (s : ServerState) (req : Request) : ServerState × HttpOut :=
  (s, writeSuccessResponse req.id (.listToolsR (s.tools.map (fun kv => kv.2.definition))))

/-- Decoding of one argument value into a field of the parameter struct:
null leaves the zero value, a matching primitive is taken, and any other
JSON shape is an unmarshal error, as encoding/json behaves. -/
def decodeFieldVal (t : PrimType) : Json → Except String GoVal
  | .null => .ok t.zero
  | .num n => match t with
    | .number => .ok (.num n)
    | _ => .error "json: cannot unmarshal number into field"
  | .str s => match t with
    | .string => .ok (.str s)
    | _ => .error "json: cannot unmarshal string into field"
  | .boolVal b => match t with
    | .boolean => .ok (.boolean b)
    | _ => .error "json: cannot unmarshal bool into field"
  | _ => .error "json: cannot unmarshal value into field"

/-- Decoding of one struct field from the arguments object: fields tagged
with a dash are never written, an absent key leaves the zero value, a present
key goes through decodeFieldVal. Keys of the object that match no field are
simply never consulted, which is how encoding/json ignores unknown members. -/
def decodeField (kvs : List (String × Json)) (f : StructField) : Except String GoVal :=
  if f.jsonTag = "-" then .ok f.fieldType.zero
  else
    match assocFind (fieldKey f) kvs with
    | none => .ok f.fieldType.zero
    | some v => decodeFieldVal f.fieldType v

/-- Embedding of the argument decode in handleCallTool: the arguments map is
marshalled back to JSON and unmarshalled into a fresh zero instance of the
parameter struct. A nil map round trips through null, leaving every field at
its zero value. -/
def decodeArgs (fields : List StructField) :
    Option (List (String × Json)) → Except String (List (String × GoVal))
  | none => .ok (fields.map fun f => (f.fieldName, f.fieldType.zero))
  | some kvs => fields.mapM fun f => (decodeField kvs f).map fun v => (f.fieldName, v)

/-- Embedding of handleCallTool: decode the call params, resolve the tool
(absence is a -32602 error), decode the arguments (failure is a -32602
error), invoke the handler, and wrap a non nil handler error as a successful
response whose CallToolResult carries isError with the message as text; a nil
error yields the rendered first return value, or a fixed completion message
for handlers without one. -/
def handleCallTool (s : ServerState) (req : Request) : ServerState × HttpOut :=
  let parsed : Except String CallToolRequest := match req.params with
    | none => .error "unexpected end of JSON input"
    | some p => parseCallToolRequest p
  match parsed with
  | .error e => (s, writeErrorResponse req.id (-32602) "Invalid params for tools/call" (some e))
  | .ok cp =>
    match assocFind cp.name s.tools with
    | none => (s, writeErrorResponse req.id (-32602) ("Tool not found: " ++ cp.name) none)
    | some tool =>
      match decodeArgs tool.fields cp.arguments with
      | .error e =>
        (s, writeErrorResponse req.id (-32602) ("Invalid arguments for tool " ++ cp.name) (some e))
      | .ok args =>
        match (tool.run args).errMsg with
        | some m =>
          (s, writeSuccessResponse req.id (.callToolR ⟨[⟨"text", m⟩], true⟩))
        | none =>
          let text := match (tool.run args).value with
            | some v => v
            | none => "Operation completed successfully."
          (s, writeSuccessResponse req.id (.callToolR ⟨[⟨"text", text⟩], false⟩))

/-- Embedding of handleRequest: dispatch on the method name; an unknown
method is a -32601 error. -/
def handleRequest (s : ServerState) (req : Request) (now : Nat) : ServerState × HttpOut :=
  match req.method with
  | "initialize" => handleInitialize s req now
  | "tools/list" => handleListTools s req
  | "tools/call" => handleCallTool s req
  | _ => (s, writeErrorResponse req.id (-32601) "Method not found" none)

/-- Embedding of handleNotification: both the initialized branch and the
default branch acknowledge with 202 Accepted and write no envelope. -/
def handleNotification (s : ServerState) (n : Notification) : ServerState × HttpOut :=
  match n.method with
  | "notifications/initialized" => (s, ⟨202, none, none⟩)
  | _ => (s, ⟨202, none, none⟩)

/-- Inbound POST payload as the generic first unmarshal sees it: bytes that
are not valid JSON, or a parsed JSON value. -/
inductive Body where
  | malformed : Body
  | json : Json → Body

/-- Embedding of handleMCPRequest for a POST: bytes that do not parse as a
JSON object fail the generic unmarshal into a map and yield a -32700 parse
error; an object with an id member is re-parsed strictly as a Request (a
structural failure is again -32700) and dispatched; an object without an id
member is parsed as a Notification, a failure yielding a bare 400 with no
envelope and success an acknowledgement. -/
def handleMCPRequest (s : ServerState) (b : Body) (now : Nat) : ServerState × HttpOut :=
  match b with
  | .malformed =>
    (s, writeErrorResponse .nullId (-32700) "Parse error: Invalid JSON"
      (some "invalid character"))
  | .json j =>
    match j with
    | .obj kvs =>
      if (assocFind "id" kvs).isSome then
        match parseRequest kvs with
        | .error e =>
          (s, writeErrorResponse .nullId (-32700) "Parse error: Invalid Request structure" (some e))
        | .ok req => handleRequest s req now
      else
        match parseNotification kvs with
        | .error _ => (s, ⟨400, none, none⟩)
        | .ok n => handleNotification s n
    | _ =>
      (s, writeErrorResponse .nullId (-32700) "Parse error: Invalid JSON"
        (some "json: cannot unmarshal value into map"))

/-- Value a struct field ends up holding after the argument decode: the
decoded value when the key is present and well typed, the zero value
otherwise. -/
def decodedVal (kvs : List (String × Json)) (f : StructField) : GoVal :=
  match decodeField kvs f with
  | .ok v => v
  | .error _ => f.fieldType.zero

/-- Explicit form of a successful argument decode: every field paired with
the value decodeArgs assigns it. -/
def decodedArgs (fields : List StructField) : Option (List (String × Json)) → List (String × GoVal)
  | none => fields.map fun f => (f.fieldName, f.fieldType.zero)
  | some kvs => fields.map fun f => (f.fieldName, decodedVal kvs f)

/-! Concrete fixtures used by witnesses and counterexamples, drawn from the
calculator example that ships with the repository. -/

/-- Server state right after NewServer, before any registration. -/
def emptyServer : ServerState :=
  ⟨⟨"GoCalculatorServer", "1.0.0", ""⟩, ⟨some ⟨false⟩, none, none, none⟩, [], []⟩

/-- Parameter struct of the calculator add tool (AddParams). -/
def addParamsFields : List StructField :=
  [⟨"A", "a", "The first number to add.", .number⟩,
   ⟨"B", "b", "The second number to add.", .number⟩]

/-- Shape of the add handler: func(ctx context.Context, params *AddParams)
(string, error), with a fixed rendered return for the model. -/
def addHandler : HandlerShape :=
  ⟨true, [⟨true, none⟩, ⟨false, some addParamsFields⟩], fun _ => ⟨some "5", none⟩⟩

/-- Registration entry for the add tool. -/
def addReg : ToolRegistration :=
  ⟨⟨"calculator/add", "Add Numbers", "Calculates the sum of two numbers, a and b.", none⟩,
   addHandler⟩

/-- Registration entry with an empty name, which registerSingleTool rejects. -/
def badReg : ToolRegistration :=
  ⟨⟨"", "Bad", "", none⟩, ⟨true, [⟨false, some []⟩], fun _ => ⟨none, none⟩⟩⟩

/-- Registration entry that reuses the add tool name. -/
def dupReg : ToolRegistration :=
  ⟨⟨"calculator/add", "Duplicate", "", none⟩, ⟨true, [⟨false, some []⟩], fun _ => ⟨none, none⟩⟩⟩

/-- Server state after successfully registering the add tool. -/
def serverWithAdd : ServerState := (registerSingleTool emptyServer addReg).1

/-- Schema synthesized for AddParams. -/
def addSchema : Schema :=
  ⟨"object",
   [("a", ⟨"number", "The first number to add."⟩),
    ("b", ⟨"number", "The second number to add."⟩)],
   ["a", "b"]⟩

/-- Registry record stored for the add tool. -/
def addTool : RegisteredTool :=
  ⟨⟨"calculator/add", "Add Numbers", "Calculates the sum of two numbers, a and b.",
    some addSchema⟩, addParamsFields, true, addHandler.run⟩

/-- Handler shape with exactly one parameter that is a pointer to a struct
and whose pointer type also implements context.Context, as a Go struct with
Deadline, Done, Err and Value methods on its pointer receiver would be. -/
def ctxPtrHandler : HandlerShape :=
  ⟨true, [⟨true, some []⟩], fun _ => ⟨none, none⟩⟩

/-- Handler whose returned error is always non nil. -/
def boomHandler : HandlerShape :=
  ⟨true, [⟨false, some []⟩], fun _ => ⟨none, some "kaboom"⟩⟩

/-- Registration entry for the always failing tool. -/
def boomReg : ToolRegistration := ⟨⟨"boom", "", "", none⟩, boomHandler⟩

/-- Server state after successfully registering the failing tool. -/
def serverWithBoom : ServerState := (registerSingleTool emptyServer boomReg).1

/-- Registry record stored for the failing tool. -/
def boomTool : RegisteredTool :=
  ⟨⟨"boom", "", "", some ⟨"object", [], []⟩⟩, [], false, boomHandler.run⟩

/-- tools/call request naming a tool absent from the registry. -/
def callUnknownReq : Request :=
  ⟨"2.0", .numId 7, "tools/call", some (.obj [("name", .str "nope")])⟩

/-- tools/call request for the failing tool, with no arguments member. -/
def callBoomReq : Request :=
  ⟨"2.0", .numId 8, "tools/call", some (.obj [("name", .str "boom")])⟩

/-- tools/call request for the add tool whose arguments omit the b field and
carry an unknown extra key. -/
def callAddSparseReq : Request :=
  ⟨"2.0", .numId 9, "tools/call",
   some (.obj [("name", .str "calculator/add"),
               ("arguments", .obj [("a", .num 2), ("zzz", .str "ignored")])])⟩

/-- Well formed initialize parameters. -/
def initParamsJson : Json :=
  .obj [("protocolVersion", .str "2024-11-05"),
        ("clientInfo", .obj [("name", .str "client"), ("version", .str "1.0")]),
        ("capabilities", .obj [])]

/-- Well formed initialize request. -/
def initReq : Request := ⟨"2.0", .numId 1, "initialize", some initParamsJson⟩

/-! Helper development: the decimal rendering used by sessionIdFor is
injective, so distinct clock readings mint distinct session identifiers. -/

/-- Decimal digit list of a natural number, most significant first; a
structurally recursive reformulation of Nat.toDigitsCore used to reason about
Nat.repr. -/
def simpleDigits (n : Nat) : List Char :=
  if n < 10 then [Nat.digitChar n]
  else simpleDigits (n / 10) ++ [Nat.digitChar (n % 10)]
decreasing_by exact Nat.div_lt_self (by omega) (by omega)

theorem toDigitsCore_eq_simpleDigits (f : Nat) : ∀ (n : Nat) (acc : List Char), n < f →
    Nat.toDigitsCore 10 f n acc = simpleDigits n ++ acc := by
  induction f with
  | zero => intro n acc h; omega
  | succ f ih =>
    intro n acc h
    rw [Nat.toDigitsCore]
    by_cases h10 : n / 10 = 0
    · have hn : n < 10 := by omega
      have hmod : n % 10 = n := Nat.mod_eq_of_lt hn
      simp [h10, simpleDigits, hn, hmod]
    · have hge : ¬ n < 10 := by
        intro hc
        exact h10 (Nat.div_eq_of_lt hc)
      simp only [h10, if_false]
      rw [ih (n / 10) _ (by
        have := Nat.div_lt_self (by omega : 0 < n) (by omega : 1 < 10)
        omega)]
      conv_rhs => rw [simpleDigits]
      rw [if_neg hge, List.append_assoc]
      rfl

theorem repr_eq_simpleDigits (n : Nat) : Nat.repr n = (simpleDigits n).asString := by
  unfold Nat.repr Nat.toDigits
  rw [toDigitsCore_eq_simpleDigits (n + 1) n [] (by omega)]
  simp

theorem digitChar_inj (a b : Nat) (ha : a < 10) (hb : b < 10)
    (h : Nat.digitChar a = Nat.digitChar b) : a = b := by
  interval_cases a <;> interval_cases b <;> simp_all [Nat.digitChar]

theorem simpleDigits_ne_nil (n : Nat) : simpleDigits n ≠ [] := by
  rw [simpleDigits]
  split
  · simp
  · simp

theorem simpleDigits_lt {n : Nat} (h : n < 10) : simpleDigits n = [Nat.digitChar n] := by
  rw [simpleDigits, if_pos h]

theorem simpleDigits_ge {n : Nat} (h : ¬ n < 10) :
    simpleDigits n = simpleDigits (n / 10) ++ [Nat.digitChar (n % 10)] := by
  conv_lhs => rw [simpleDigits]
  rw [if_neg h]

theorem simpleDigits_inj : ∀ n m : Nat, simpleDigits n = simpleDigits m → n = m := by
  intro n
  induction n using Nat.strong_induction_on with
  | _ n ih =>
    intro m h
    by_cases hn : n < 10 <;> by_cases hm : m < 10
    · rw [simpleDigits_lt hn, simpleDigits_lt hm] at h
      simp only [List.cons.injEq, and_true] at h
      exact digitChar_inj n m hn hm h
    · exfalso
      rw [simpleDigits_lt hn, simpleDigits_ge hm] at h
      have hlen := congrArg List.length h
      have h2 := simpleDigits_ne_nil (m / 10)
      cases hsd : simpleDigits (m / 10) with
      | nil => exact h2 hsd
      | cons a l => rw [hsd] at hlen; simp at hlen
    · exfalso
      rw [simpleDigits_ge hn, simpleDigits_lt hm] at h
      have hlen := congrArg List.length h
      have h2 := simpleDigits_ne_nil (n / 10)
      cases hsd : simpleDigits (n / 10) with
      | nil => exact h2 hsd
      | cons a l => rw [hsd] at hlen; simp at hlen
    · rw [simpleDigits_ge hn, simpleDigits_ge hm] at h
      have hrev := congrArg List.reverse h
      simp only [List.reverse_append, List.reverse_cons, List.reverse_nil, List.nil_append,
        List.singleton_append, List.cons.injEq] at hrev
      obtain ⟨hd, htl⟩ := hrev
      have hmod : n % 10 = m % 10 :=
        digitChar_inj _ _ (Nat.mod_lt _ (by omega)) (Nat.mod_lt _ (by omega)) hd
      have hdivlt : n / 10 < n := Nat.div_lt_self (by omega) (by omega)
      have hdiv : n / 10 = m / 10 :=
        ih (n / 10) hdivlt (m / 10) (List.reverse_injective htl)
      omega

theorem nat_repr_inj (n m : Nat) (h : Nat.repr n = Nat.repr m) : n = m := by
  rw [repr_eq_simpleDigits, repr_eq_simpleDigits] at h
  have h2 := congrArg String.data h
  simp only [List.asString] at h2
  exact simpleDigits_inj n m h2

theorem sessionIdFor_inj (a b : Nat) (h : sessionIdFor a = sessionIdFor b) : a = b := by
  have hd := congrArg String.data h
  simp only [sessionIdFor, String.data_append] at hd
  have h2 := List.append_cancel_left hd
  exact nat_repr_inj a b (String.ext h2)

/-! Shared lemmas about the association list operations and the response
writers. -/

theorem assocFind_insert_self {α : Type} (k : String) (v : α) (l : List (String × α)) :
    assocFind k (assocInsert k v l) = some v := by
  induction l with
  | nil => simp [assocFind, assocInsert]
  | cons kv rest ih =>
    by_cases hk : kv.1 = k
    · simp [assocInsert, assocFind, hk]
    · simp [assocInsert, assocFind, hk, ih]

theorem assocFind_insert_other {α : Type} (k k2 : String) (v : α) (l : List (String × α))
    (h : k2 ≠ k) : assocFind k (assocInsert k2 v l) = assocFind k l := by
  induction l with
  | nil => simp [assocFind, assocInsert, h]
  | cons kv rest ih =>
    by_cases hk : kv.1 = k2
    · simp [assocInsert, assocFind, hk, h]
    · simp only [assocInsert, hk, if_false, assocFind]
      by_cases hk2 : kv.1 = k
      · simp [hk2]
      · simp [hk2, ih]

theorem handleNotification_eq (s : ServerState) (n : Notification) :
    handleNotification s n = (s, ⟨202, none, none⟩) := by
  unfold handleNotification
  split <;> rfl

theorem writeErrorResponse_body (id : RequestID) (code : Int) (msg : String)
    (d : Option String) (r : Response)
    (h : (writeErrorResponse id code msg d).body = some r) :
    r.result = none ∧ r.error.isSome = true := by
  simp only [writeErrorResponse, Option.some.injEq] at h
  subst h
  simp

theorem writeSuccessResponse_body (id : RequestID) (x : RpcResult) (r : Response)
    (h : (writeSuccessResponse id x).body = some r) :
    r.result.isSome = true ∧ r.error = none := by
  simp only [writeSuccessResponse, Option.some.injEq] at h
  subst h
  simp

/-- C1: the spec and the comment inside RegisterTools promise atomic batch
registration, but the loop only stops at the first failure without removing
entries already committed: after registering the valid add tool and then
failing on an entry with an empty name, RegisterTools returns an error while
the add tool is still present in the registry. -/
theorem registerTools_error_leaves_prefix_registered :
    ((RegisterTools emptyServer [addReg, badReg]).2.isSome = true) ∧
    ((assocFind "calculator/add" (RegisterTools emptyServer [addReg, badReg]).1.tools).isSome
      = true) :=
  ⟨rfl, rfl⟩

/-- C2: after a first registration under a non empty name succeeds, any
second registration bearing the same name fails with a registration error,
leaves the registry unchanged, and the registry still holds exactly the
record built from the first registration under that name. -/
theorem duplicate_name_rejected (s s1 : ServerState) (r1 r2 : ToolRegistration)
    (hname : r2.definition.name = r1.definition.name)
    (hne : r1.definition.name ≠ "")
    (h1 : registerSingleTool s r1 = (s1, none)) :
    (registerSingleTool s1 r2).1 = s1 ∧
    (registerSingleTool s1 r2).2.isSome = true ∧
    (∃ tc fs,
      validateHandler r1.handler = .ok (tc, fs) ∧
      assocFind r1.definition.name s1.tools =
        some ⟨⟨r1.definition.name, r1.definition.title, r1.definition.description,
          some ⟨"object", addDescriptions fs (reflectProperties fs), requiredList fs⟩⟩,
          fs, tc, r1.handler.run⟩) := by
  unfold registerSingleTool at h1
  rw [if_neg hne] at h1
  cases hv : validateHandler r1.handler with
  | error e => rw [hv] at h1; simp at h1
  | ok tcfs =>
    obtain ⟨tc, fs⟩ := tcfs
    rw [hv] at h1
    simp only [generateSchemaForType] at h1
    by_cases hdup : (assocFind r1.definition.name s.tools).isSome
    · rw [if_pos hdup] at h1; simp at h1
    · rw [if_neg hdup] at h1
      simp only [Prod.mk.injEq] at h1
      obtain ⟨hs1, -⟩ := h1
      subst hs1
      have hfind : assocFind r1.definition.name
          ((r1.definition.name,
            (⟨⟨r1.definition.name, r1.definition.title, r1.definition.description,
              some ⟨"object", addDescriptions fs (reflectProperties fs), requiredList fs⟩⟩,
              fs, tc, r1.handler.run⟩ : RegisteredTool)) :: s.tools) =
          some ⟨⟨r1.definition.name, r1.definition.title, r1.definition.description,
            some ⟨"object", addDescriptions fs (reflectProperties fs), requiredList fs⟩⟩,
            fs, tc, r1.handler.run⟩ := by
        simp [assocFind]
      refine ⟨?_, ?_, tc, fs, ?_, hfind⟩
      · unfold registerSingleTool
        rw [hname, if_neg hne]
        cases hv2 : validateHandler r2.handler with
        | error e => rfl
        | ok tcfs2 =>
          obtain ⟨tc2, fs2⟩ := tcfs2
          simp only [generateSchemaForType]
          rw [if_pos (by simp [hfind])]
      · unfold registerSingleTool
        rw [hname, if_neg hne]
        cases hv2 : validateHandler r2.handler with
        | error e => rfl
        | ok tcfs2 =>
          obtain ⟨tc2, fs2⟩ := tcfs2
          simp only [generateSchemaForType]
          rw [if_pos (by simp [hfind])]
          rfl
      · rfl

/-- C2 witness: registering the add tool into the empty server and then
registering a second entry named calculator/add fails and keeps the first
record. -/
theorem duplicate_name_rejected_witness :
    (registerSingleTool serverWithAdd dupReg).1 = serverWithAdd ∧
    (registerSingleTool serverWithAdd dupReg).2.isSome = true ∧
    (∃ tc fs,
      validateHandler addReg.handler = .ok (tc, fs) ∧
      assocFind addReg.definition.name serverWithAdd.tools =
        some ⟨⟨addReg.definition.name, addReg.definition.title, addReg.definition.description,
          some ⟨"object", addDescriptions fs (reflectProperties fs), requiredList fs⟩⟩,
          fs, tc, addReg.handler.run⟩) :=
  duplicate_name_rejected emptyServer serverWithAdd addReg dupReg rfl (by decide) rfl

/-- C3 counterexample: a function with exactly one parameter that is a
pointer to a struct is nevertheless rejected when that pointer type also
implements context.Context, because the code then expects two parameters;
the claim as stated says every one-parameter pointer-to-struct handler is
accepted with acceptsCancellationToken false. -/
theorem one_ctx_ptr_struct_param_rejected :
    ctxPtrHandler.isFunc = true ∧
    ctxPtrHandler.params = [⟨true, some []⟩] ∧
    validateHandler ctxPtrHandler =
      .error "handler has incorrect number of arguments (expected 2, got 1)" :=
  ⟨rfl, rfl, rfl⟩

/-- C3 amended: registerSingleTool accepts a handler exactly when it is a
function whose parameters are either a single pointer-to-struct parameter
that does not implement the context interface (acceptsCancellationToken
false), or two parameters with the first implementing the context interface
and the second a pointer to a struct (acceptsCancellationToken true); every
other shape is rejected with a registration error. -/
theorem validateHandler_ok_iff (h : HandlerShape) (tc : Bool) (fs : List StructField) :
    validateHandler h = .ok (tc, fs) ↔
      h.isFunc = true ∧
      ((∃ p, h.params = [p] ∧ p.implementsContext = false ∧ p.structFields = some fs ∧
         tc = false) ∨
       (∃ p q, h.params = [p, q] ∧ p.implementsContext = true ∧ q.structFields = some fs ∧
         tc = true)) := by
  constructor
  · intro he
    unfold validateHandler at he
    by_cases hf : h.isFunc = false
    · rw [if_pos hf] at he
      exact absurd he (by simp)
    · have hf2 : h.isFunc = true := by
        cases hfu : h.isFunc
        · exact absurd hfu hf
        · rfl
      rw [if_neg hf] at he
      refine ⟨hf2, ?_⟩
      cases hps : h.params with
      | nil =>
        rw [hps] at he
        simp [List.head?] at he
      | cons p rest =>
        cases rest with
        | nil =>
          rw [hps] at he
          cases hctx : p.implementsContext
          · cases hsf : p.structFields with
            | none =>
              simp [List.head?, List.getLast?, hctx, hsf] at he
            | some fs2 =>
              simp [List.head?, List.getLast?, hctx, hsf] at he
              exact Or.inl ⟨p, rfl, hctx, by rw [hsf, he.2], he.1⟩
          · simp [List.head?, hctx] at he
        | cons q rest2 =>
          cases rest2 with
          | nil =>
            rw [hps] at he
            cases hctx : p.implementsContext
            · simp [List.head?, hctx] at he
            · cases hsf : q.structFields with
              | none =>
                simp [List.head?, List.getLast?, List.getLast, hctx, hsf] at he
              | some fs2 =>
                simp [List.head?, List.getLast?, List.getLast, hctx, hsf] at he
                exact Or.inr ⟨p, q, rfl, hctx, by rw [hsf, he.2], he.1⟩
          | cons r rest3 =>
            rw [hps] at he
            cases hctx : p.implementsContext
            · simp [List.head?, hctx] at he
            · simp [List.head?, hctx] at he
  · rintro ⟨hfunc, (⟨p, hp, hpc, hpf, htc⟩ | ⟨p, q, hpq, hpc, hqf, htc⟩)⟩
    · subst htc
      unfold validateHandler
      rw [if_neg (by rw [hfunc]; simp)]
      simp [hp, List.head?, List.getLast?, hpc, hpf]
    · subst htc
      unfold validateHandler
      rw [if_neg (by rw [hfunc]; simp)]
      simp [hpq, List.head?, List.getLast?, List.getLast, hpc, hqf]

/-- C4: for a parameter struct with two numeric fields tagged a and b, each
carrying a non empty description tag, schema synthesis yields an object
schema whose properties are exactly a and b, each annotated with its
description tag, and whose required list is exactly a then b. -/
theorem schema_two_numeric_fields (d1 d2 : String) (h1 : d1 ≠ "") (h2 : d2 ≠ "") :
    generateSchemaForType (.ptrTo (.structT
      [⟨"A", "a", d1, .number⟩, ⟨"B", "b", d2, .number⟩])) =
      .ok ⟨"object",
        [("a", ⟨"number", d1⟩), ("b", ⟨"number", d2⟩)],
        ["a", "b"]⟩ := by
  simp [generateSchemaForType, addDescriptions, reflectProperties, requiredList,
    setDescription, jsonPropName, fieldKey, List.foldl, h1, h2]
  exact ⟨⟨⟨rfl, rfl⟩, rfl, rfl⟩, rfl, rfl⟩

/-- C4 witness: the synthesized schema for the AddParams struct of the
calculator example. -/
theorem schema_two_numeric_fields_witness :
    generateSchemaForType (.ptrTo (.structT
      [⟨"A", "a", "The first number to add.", .number⟩,
       ⟨"B", "b", "The second number to add.", .number⟩])) =
      .ok ⟨"object",
        [("a", ⟨"number", "The first number to add."⟩),
         ("b", ⟨"number", "The second number to add."⟩)],
        ["a", "b"]⟩ :=
  schema_two_numeric_fields "The first number to add." "The second number to add."
    (by decide) (by decide)

/-- C5: a tools/call request whose decoded tool name is absent from the
registry is answered with a JSON-RPC error envelope carrying code -32602 and
echoing the request id, over HTTP status 400, with no result member, no
session header, and the server state returned unchanged; the response is
built before any handler could run. -/
theorem unknown_tool_yields_invalid_params (s : ServerState) (req : Request) (p : Json)
    (cp : CallToolRequest)
    (hp : req.params = some p)
    (hparse : parseCallToolRequest p = .ok cp)
    (habs : assocFind cp.name s.tools = none) :
    handleCallTool s req =
      (s, ⟨400, some ⟨"2.0", req.id, none,
        some ⟨-32602, "Tool not found: " ++ cp.name, none⟩⟩, none⟩) := by
  unfold handleCallTool
  rw [hp]
  simp only [hparse, habs]
  unfold writeErrorResponse httpStatusFor
  norm_num

/-- C5 witness: calling the unregistered tool nope on the server that only
has the add tool. -/
theorem unknown_tool_yields_invalid_params_witness :
    handleCallTool serverWithAdd callUnknownReq =
      (serverWithAdd, ⟨400, some ⟨"2.0", .numId 7, none,
        some ⟨-32602, "Tool not found: " ++ "nope", none⟩⟩, none⟩) :=
  unknown_tool_yields_invalid_params serverWithAdd callUnknownReq
    (.obj [("name", .str "nope")]) ⟨"nope", none⟩ rfl rfl rfl

/-- C6: for a registered tool whose arguments decode succeeds, a handler
that returns a non nil error produces a 200 response whose error member is
absent and whose result is a CallToolResult with isError true and a single
text block holding the error message; a handler that returns a nil error and
a value produces the same success shape with isError false and the rendered
value as the text block. -/
theorem handler_failure_isolated (s : ServerState) (req : Request) (p : Json)
    (cp : CallToolRequest) (tool : RegisteredTool) (args : List (String × GoVal))
    (hp : req.params = some p)
    (hparse : parseCallToolRequest p = .ok cp)
    (hlook : assocFind cp.name s.tools = some tool)
    (hdec : decodeArgs tool.fields cp.arguments = .ok args) :
    (∀ m, (tool.run args).errMsg = some m →
      handleCallTool s req =
        (s, ⟨200, some ⟨"2.0", req.id,
          some (.callToolR ⟨[⟨"text", m⟩], true⟩), none⟩, none⟩)) ∧
    (∀ v, (tool.run args).errMsg = none → (tool.run args).value = some v →
      handleCallTool s req =
        (s, ⟨200, some ⟨"2.0", req.id,
          some (.callToolR ⟨[⟨"text", v⟩], false⟩), none⟩, none⟩)) := by
  constructor
  · intro m hm
    unfold handleCallTool
    rw [hp]
    simp only [hparse, hlook, hdec, hm]
    rfl
  · intro v hnil hval
    unfold handleCallTool
    rw [hp]
    simp only [hparse, hlook, hdec, hnil, hval]
    rfl

/-- C6 witness: the boom tool always fails with the message kaboom, and the
call is answered as a 200 success envelope whose CallToolResult carries
isError and the message. -/
theorem handler_failure_isolated_witness :
    (∀ m, (boomTool.run []).errMsg = some m →
      handleCallTool serverWithBoom callBoomReq =
        (serverWithBoom, ⟨200, some ⟨"2.0", .numId 8,
          some (.callToolR ⟨[⟨"text", m⟩], true⟩), none⟩, none⟩)) ∧
    (∀ v, (boomTool.run []).errMsg = none → (boomTool.run []).value = some v →
      handleCallTool serverWithBoom callBoomReq =
        (serverWithBoom, ⟨200, some ⟨"2.0", .numId 8,
          some (.callToolR ⟨[⟨"text", v⟩], false⟩), none⟩, none⟩)) :=
  handler_failure_isolated serverWithBoom callBoomReq
    (.obj [("name", .str "boom")]) ⟨"boom", none⟩ boomTool [] rfl rfl rfl rfl

/-! Envelope exclusivity helpers: every envelope any handler emits comes out
of writeSuccessResponse or writeErrorResponse. -/

theorem handleInitialize_body_exclusive (s : ServerState) (req : Request) (now : Nat)
    (r : Response) (h : (handleInitialize s req now).2.body = some r) :
    (r.result.isSome = true ∧ r.error = none) ∨ (r.result = none ∧ r.error.isSome = true) := by
  unfold handleInitialize at h
  split at h
  · exact Or.inr (writeErrorResponse_body _ _ _ _ r h)
  · simp only at h
    split at h
    · exact Or.inr (writeErrorResponse_body _ _ _ _ r h)
    · exact Or.inl (writeSuccessResponse_body _ _ r h)

theorem handleListTools_body_exclusive (s : ServerState) (req : Request)
    (r : Response) (h : (handleListTools s req).2.body = some r) :
    (r.result.isSome = true ∧ r.error = none) ∨ (r.result = none ∧ r.error.isSome = true) := by
  unfold handleListTools at h
  exact Or.inl (writeSuccessResponse_body _ _ r h)

theorem handleCallTool_body_exclusive (s : ServerState) (req : Request)
    (r : Response) (h : (handleCallTool s req).2.body = some r) :
    (r.result.isSome = true ∧ r.error = none) ∨ (r.result = none ∧ r.error.isSome = true) := by
  unfold handleCallTool at h
  split at h
  · exact Or.inr (writeErrorResponse_body _ _ _ _ r h)
  · simp only at h
    split at h
    · exact Or.inr (writeErrorResponse_body _ _ _ _ r h)
    · split at h
      · exact Or.inr (writeErrorResponse_body _ _ _ _ r h)
      · split at h
        · exact Or.inr (writeErrorResponse_body _ _ _ _ r h)
        · split at h
          · exact Or.inl (writeSuccessResponse_body _ _ r h)
          · exact Or.inl (writeSuccessResponse_body _ _ r h)

theorem handleRequest_body_exclusive (s : ServerState) (req : Request) (now : Nat)
    (r : Response) (h : (handleRequest s req now).2.body = some r) :
    (r.result.isSome = true ∧ r.error = none) ∨ (r.result = none ∧ r.error.isSome = true) := by
  unfold handleRequest at h
  split at h
  · exact handleInitialize_body_exclusive _ _ _ r h
  · exact handleListTools_body_exclusive _ _ r h
  · exact handleCallTool_body_exclusive _ _ r h
  · exact Or.inr (writeErrorResponse_body _ _ _ _ r h)

/-- C7: every JSON-RPC envelope the router writes, over any server state,
inbound payload and clock, carries exactly one of the result and error
members: either the result member is set and the error member absent, or the
error member is set and the result member absent. -/
theorem response_exactly_one_of_result_error (s : ServerState) (b : Body) (now : Nat)
    (r : Response) (h : (handleMCPRequest s b now).2.body = some r) :
    (r.result.isSome = true ∧ r.error = none) ∨ (r.result = none ∧ r.error.isSome = true) := by
  unfold handleMCPRequest at h
  split at h
  · exact Or.inr (writeErrorResponse_body _ _ _ _ r h)
  · rename_i j
    cases j with
    | obj kvs =>
      simp only at h
      split at h
      · split at h
        · exact Or.inr (writeErrorResponse_body _ _ _ _ r h)
        · exact handleRequest_body_exclusive _ _ _ r h
      · split at h
        · simp at h
        · rw [handleNotification_eq] at h
          simp at h
    | null => exact Or.inr (writeErrorResponse_body _ _ _ _ r h)
    | boolVal b2 => exact Or.inr (writeErrorResponse_body _ _ _ _ r h)
    | num n => exact Or.inr (writeErrorResponse_body _ _ _ _ r h)
    | str s2 => exact Or.inr (writeErrorResponse_body _ _ _ _ r h)
    | arr l => exact Or.inr (writeErrorResponse_body _ _ _ _ r h)

/-- C7 witness: the parse error envelope for malformed bytes has an error
member and no result member. -/
theorem response_exactly_one_of_result_error_witness :
    (((⟨"2.0", .nullId, none, some ⟨-32700, "Parse error: Invalid JSON",
        some "invalid character"⟩⟩ : Response).result.isSome = true ∧
      (⟨"2.0", .nullId, none, some ⟨-32700, "Parse error: Invalid JSON",
        some "invalid character"⟩⟩ : Response).error = none) ∨
     ((⟨"2.0", .nullId, none, some ⟨-32700, "Parse error: Invalid JSON",
        some "invalid character"⟩⟩ : Response).result = none ∧
      (⟨"2.0", .nullId, none, some ⟨-32700, "Parse error: Invalid JSON",
        some "invalid character"⟩⟩ : Response).error.isSome = true)) :=
  response_exactly_one_of_result_error emptyServer .malformed 0
    ⟨"2.0", .nullId, none, some ⟨-32700, "Parse error: Invalid JSON",
      some "invalid character"⟩⟩ rfl

/-- C8: the router answers bytes that are not valid JSON with a -32700
envelope over HTTP 400; a parsed object that contains an id member
(including a null one) is handled as a Request, either dispatching the
strictly parsed request or answering -32700 on structural failure; a parsed
object without an id member is handled as a Notification, which never
produces a JSON-RPC envelope, only a bare 202 or 400 status. -/
theorem router_request_notification_discipline (s : ServerState) (now : Nat)
    (kvs : List (String × Json)) :
    (handleMCPRequest s .malformed now =
      (s, ⟨400, some ⟨"2.0", .nullId, none,
        some ⟨-32700, "Parse error: Invalid JSON", some "invalid character"⟩⟩, none⟩)) ∧
    ((assocFind "id" kvs).isSome = true →
      handleMCPRequest s (.json (.obj kvs)) now =
        match parseRequest kvs with
        | .error e =>
          (s, writeErrorResponse .nullId (-32700) "Parse error: Invalid Request structure" (some e))
        | .ok req => handleRequest s req now) ∧
    ((assocFind "id" kvs).isSome = false →
      (handleMCPRequest s (.json (.obj kvs)) now).2.body = none ∧
      ((handleMCPRequest s (.json (.obj kvs)) now).2.status = 202 ∨
       (handleMCPRequest s (.json (.obj kvs)) now).2.status = 400)) := by
  refine ⟨rfl, ?_, ?_⟩
  · intro hid
    simp only [handleMCPRequest, hid, if_true]
  · intro hid
    simp only [handleMCPRequest, hid, Bool.false_eq_true, if_false]
    cases hpn : parseNotification kvs with
    | error e => exact ⟨rfl, Or.inr rfl⟩
    | ok n =>
      dsimp only
      rw [handleNotification_eq]
      exact ⟨rfl, Or.inl rfl⟩

/-- C9 counterexample: the session identifier is minted from the nanosecond
wall clock alone, so two sequential successful initialize calls that observe
the same clock reading mint the same identifier, and the second session
overwrites the first: after both calls the store holds a single session, not
two distinct retrievable ones as the claim states. -/
theorem same_clock_initialize_collides :
    ((handleInitialize emptyServer initReq 0).2.sessionHeader = some "session-0") ∧
    ((handleInitialize (handleInitialize emptyServer initReq 0).1 initReq 0).2.sessionHeader
      = some "session-0") ∧
    ((handleInitialize (handleInitialize emptyServer initReq 0).1 initReq 0).1.sessions.length
      = 1) :=
  ⟨rfl, rfl, rfl⟩

/-- C9 amended: two sequential successful initialize calls that observe
distinct nanosecond clock readings mint distinct session identifiers, each
returned in the response header of its call, and after both calls each
identifier maps to a stored session; with equal clock readings the
identifiers coincide and the second store overwrites the first. -/
theorem initialize_distinct_clock_distinct_sessions (s : ServerState)
    (req1 req2 : Request) (t1 t2 : Nat) (p1 p2 : Json)
    (ip1 ip2 : InitializeRequest)
    (hp1 : req1.params = some p1) (hi1 : parseInitializeRequest p1 = .ok ip1)
    (hp2 : req2.params = some p2) (hi2 : parseInitializeRequest p2 = .ok ip2)
    (ht : t1 ≠ t2) :
    ((handleInitialize s req1 t1).2.sessionHeader = some (sessionIdFor t1)) ∧
    ((handleInitialize (handleInitialize s req1 t1).1 req2 t2).2.sessionHeader
      = some (sessionIdFor t2)) ∧
    sessionIdFor t1 ≠ sessionIdFor t2 ∧
    ((assocFind (sessionIdFor t1)
       (handleInitialize (handleInitialize s req1 t1).1 req2 t2).1.sessions).isSome = true) ∧
    ((assocFind (sessionIdFor t2)
       (handleInitialize (handleInitialize s req1 t1).1 req2 t2).1.sessions).isSome = true) := by
  have hne : sessionIdFor t1 ≠ sessionIdFor t2 := fun hc => ht (sessionIdFor_inj t1 t2 hc)
  have h1 : handleInitialize s req1 t1 =
      ({ s with sessions := assocInsert (sessionIdFor t1) (SessionState.mk ip1.capabilities) s.sessions },
       { writeSuccessResponse req1.id (.initializeR ⟨ip1.protocolVersion, s.info, s.capabilities⟩)
         with sessionHeader := some (sessionIdFor t1) }) := by
    unfold handleInitialize
    rw [hp1]
    simp only [hi1]
  rw [h1]
  have h2 : handleInitialize
      ({ s with sessions := assocInsert (sessionIdFor t1) (SessionState.mk ip1.capabilities) s.sessions })
      req2 t2 =
      (ServerState.mk s.info s.capabilities
        (assocInsert (sessionIdFor t2) (SessionState.mk ip2.capabilities)
          (assocInsert (sessionIdFor t1) (SessionState.mk ip1.capabilities) s.sessions))
        s.tools,
       { writeSuccessResponse req2.id (.initializeR ⟨ip2.protocolVersion, s.info, s.capabilities⟩)
         with sessionHeader := some (sessionIdFor t2) }) := by
    unfold handleInitialize
    rw [hp2]
    simp only [hi2]
  rw [h2]
  refine ⟨rfl, rfl, hne, ?_, ?_⟩
  · rw [assocFind_insert_other _ _ _ _ (fun hc => hne hc.symm), assocFind_insert_self]
    rfl
  · rw [assocFind_insert_self]
    rfl

/-- C9 witness: clock readings 0 and 1 mint session-0 and session-1, both
retrievable afterwards. -/
theorem initialize_distinct_clock_distinct_sessions_witness :
    ((handleInitialize emptyServer initReq 0).2.sessionHeader = some (sessionIdFor 0)) ∧
    ((handleInitialize (handleInitialize emptyServer initReq 0).1 initReq 1).2.sessionHeader
      = some (sessionIdFor 1)) ∧
    sessionIdFor 0 ≠ sessionIdFor 1 ∧
    ((assocFind (sessionIdFor 0)
       (handleInitialize (handleInitialize emptyServer initReq 0).1 initReq 1).1.sessions).isSome
      = true) ∧
    ((assocFind (sessionIdFor 1)
       (handleInitialize (handleInitialize emptyServer initReq 0).1 initReq 1).1.sessions).isSome
      = true) :=
  initialize_distinct_clock_distinct_sessions emptyServer initReq initReq 0 1
    initParamsJson initParamsJson
    ⟨"2024-11-05", ⟨"client", "1.0", ""⟩, .obj []⟩
    ⟨"2024-11-05", ⟨"client", "1.0", ""⟩, .obj []⟩
    rfl rfl rfl rfl (by decide)

theorem mapM_decodeField_ok (kvs : List (String × Json)) :
    ∀ fields : List StructField, (∀ f ∈ fields, (decodeField kvs f).isOk = true) →
    (fields.mapM fun f => (decodeField kvs f).map fun v => (f.fieldName, v)) =
      .ok (fields.map fun f => (f.fieldName, decodedVal kvs f)) := by
  intro fields
  induction fields with
  | nil => intro _; rfl
  | cons f rest ih =>
    intro hok
    have hf := hok f (List.mem_cons_self ..)
    cases hdf : decodeField kvs f with
    | error e => rw [hdf] at hf; simp [Except.isOk, Except.toBool] at hf
    | ok v =>
      have hrest := ih fun g hg => hok g (List.mem_cons_of_mem _ hg)
      have hdv : decodedVal kvs f = v := by simp [decodedVal, hdf]
      rw [List.mapM_cons, hrest, hdf]
      simp only [List.map_cons, hdv, Except.map]
      rfl

/-- C10: for a registered tool, a tools/call whose arguments member is
absent, empty, or omits fields, and whose present values for known fields
are well typed, is never rejected as invalid params: the decode succeeds,
every omitted field (and the absent map as a whole) comes out as its zero
value, unknown extra keys are never consulted, the synthesized required list
is never consulted, and the response is the handler invocation result. -/
theorem sparse_arguments_decode_and_dispatch (s : ServerState) (req : Request) (p : Json)
    (cp : CallToolRequest) (tool : RegisteredTool)
    (hp : req.params = some p)
    (hparse : parseCallToolRequest p = .ok cp)
    (hlook : assocFind cp.name s.tools = some tool)
    (hok : ∀ kvs, cp.arguments = some kvs → ∀ f ∈ tool.fields, (decodeField kvs f).isOk = true) :
    decodeArgs tool.fields cp.arguments = .ok (decodedArgs tool.fields cp.arguments) ∧
    (∀ f ∈ tool.fields, ∀ kvs, cp.arguments = some kvs →
      assocFind (fieldKey f) kvs = none →
      (f.fieldName, f.fieldType.zero) ∈ decodedArgs tool.fields cp.arguments) ∧
    (cp.arguments = none →
      decodedArgs tool.fields cp.arguments =
        tool.fields.map fun f => (f.fieldName, f.fieldType.zero)) ∧
    handleCallTool s req =
      (s, match (tool.run (decodedArgs tool.fields cp.arguments)).errMsg with
          | some m => writeSuccessResponse req.id (.callToolR ⟨[⟨"text", m⟩], true⟩)
          | none => writeSuccessResponse req.id (.callToolR ⟨[⟨"text",
              match (tool.run (decodedArgs tool.fields cp.arguments)).value with
              | some v => v
              | none => "Operation completed successfully."⟩], false⟩)) := by
  have hdec : decodeArgs tool.fields cp.arguments = .ok (decodedArgs tool.fields cp.arguments) := by
    cases harg : cp.arguments with
    | none => rfl
    | some kvs => exact mapM_decodeField_ok kvs tool.fields (hok kvs harg)
  refine ⟨hdec, ?_, ?_, ?_⟩
  · intro f hf kvs harg habsent
    have hzero : decodeField kvs f = .ok f.fieldType.zero := by
      unfold decodeField
      by_cases hd : f.jsonTag = "-"
      · rw [if_pos hd]
      · rw [if_neg hd, habsent]
    rw [harg]
    exact List.mem_map.mpr ⟨f, hf, by simp [decodedVal, hzero]⟩
  · intro harg
    rw [harg]
    rfl
  · unfold handleCallTool
    rw [hp]
    simp only [hparse, hlook, hdec]
    cases hrm : (tool.run (decodedArgs tool.fields cp.arguments)).errMsg with
    | some m => simp only [hrm]
    | none => simp only [hrm]

/-- C10 witness: calling the add tool with arguments that omit the b field
and carry an unknown key zzz decodes b to zero, ignores zzz, and dispatches
to the handler. -/
theorem sparse_arguments_decode_and_dispatch_witness :
    decodeArgs addTool.fields (some [("a", .num 2), ("zzz", .str "ignored")]) =
      .ok (decodedArgs addTool.fields (some [("a", .num 2), ("zzz", .str "ignored")])) ∧
    (∀ f ∈ addTool.fields, ∀ kvs,
      (some [("a", Json.num 2), ("zzz", Json.str "ignored")] :
        Option (List (String × Json))) = some kvs →
      assocFind (fieldKey f) kvs = none →
      (f.fieldName, f.fieldType.zero) ∈
        decodedArgs addTool.fields (some [("a", .num 2), ("zzz", .str "ignored")])) ∧
    ((some [("a", Json.num 2), ("zzz", Json.str "ignored")] :
        Option (List (String × Json))) = none →
      decodedArgs addTool.fields (some [("a", .num 2), ("zzz", .str "ignored")]) =
        addTool.fields.map fun f => (f.fieldName, f.fieldType.zero)) ∧
    handleCallTool serverWithAdd callAddSparseReq =
      (serverWithAdd,
        match (addTool.run (decodedArgs addTool.fields
            (some [("a", .num 2), ("zzz", .str "ignored")]))).errMsg with
        | some m => writeSuccessResponse (.numId 9) (.callToolR ⟨[⟨"text", m⟩], true⟩)
        | none => writeSuccessResponse (.numId 9) (.callToolR ⟨[⟨"text",
            match (addTool.run (decodedArgs addTool.fields
                (some [("a", .num 2), ("zzz", .str "ignored")]))).value with
            | some v => v
            | none => "Operation completed successfully."⟩], false⟩)) :=
  sparse_arguments_decode_and_dispatch serverWithAdd callAddSparseReq
    (.obj [("name", .str "calculator/add"),
           ("arguments", .obj [("a", .num 2), ("zzz", .str "ignored")])])
    ⟨"calculator/add", some [("a", .num 2), ("zzz", .str "ignored")]⟩
    addTool rfl rfl rfl
    (by
      intro kvs hk f hf
      injection hk with h
      subst h
      revert f hf
      decide)

end GoMcp
